import Mathlib

/-!
Verification of `pulsar/async/stream.py`: a shallow embedding of the
stream-transport layer (TCP/TLS transports, connector, listener) together
with theorems settling the specification claims.

Bytes are modelled as natural numbers and byte strings as lists of bytes.
Socket behaviour (results of `send`/`recv`/`bind`/`connect` system calls)
is supplied by explicit oracles, so every definition is executable.
-/

namespace Pulsar

/-- A byte (abstract). -/
abbrev Byte := Nat

/-- A byte string, Python `bytes`.  The empty list is Python's `b''`. -/
abbrev Chunk := List Byte

/-- `MAX_CONSECUTIVE_WRITES` from `stream.py`. -/
def MAX_CONSECUTIVE_WRITES : Nat := 500

/-- Modelled from the spec: `WRITE_BUFFER_MAX_SIZE` is imported from
`pulsar.utils.internet`, which is not among the sources; the spec only
requires "a fixed maximum segment size" used to split large chunks.  The
concrete value is irrelevant to every proof below; it only has to be
positive so that the splitting loop terminates. -/
def WRITE_BUFFER_MAX_SIZE : Nat := 131072

/-- The failure a transport abort carries to `connection_lost`:
`tooManyWrites` is the `TooManyConsecutiveWrite` exception raised in
`write`, `socketError` any failure captured via `sys.exc_info()`. -/
inductive AbortReason
  | tooManyWrites
  | socketError
deriving DecidableEq, Repr

/-- Protocol callbacks observed by the consumer, in invocation order. -/
inductive PEvent
  | connection_made
  | data_received (c : Chunk)
  | eof_received
  | connection_lost (r : AbortReason)
deriving DecidableEq, Repr

/-- Exceptions that propagate out of the transport's public methods. -/
inductive ApiError
  /-- `_check_closed` raised: the transport is closing/closed. -/
  | closedError
  /-- `TypeError`: iterating over `None` (`resume_reading` with no buffer). -/
  | typeError
deriving DecidableEq, Repr

/-- Result of one `sock.send(buffer[0])` call, supplied by the oracle.
`sent n` is a successful send of `min n len(buffer[0])` bytes (a socket
never reports more bytes than it was handed); `wouldBlock` is a socket
error in `TRY_WRITE_AGAIN`; `fatal` is any other socket error. -/
inductive SendR
  | sent (n : Nat)
  | wouldBlock
  | fatal
deriving DecidableEq, Repr

/-- Result of one `sock.recv(read_chunk_size)` call, supplied by the
oracle. `data []` is a zero-length receive (`b''`, orderly peer shutdown);
`wouldBlock` is `EWOULDBLOCK`; `err` is any other socket error. -/
inductive RecvR
  | data (c : Chunk)
  | wouldBlock
  | err
deriving DecidableEq, Repr

/-- State of a `SocketStreamTransport`, with the byte/event traces needed
to state the claims.  `sent` records every byte successfully sent on the
socket, in order; `events` records the protocol callbacks, in order. -/
structure TransportState where
  /-- `self._write_buffer`, a FIFO deque of chunks. -/
  write_buffer : List Chunk
  /-- `self._read_buffer`; `stream.py` line 40 declares the class
  attribute `_read_buffer = None` and no code in the sources ever assigns
  a list to it, so `none` models Python's `None`. -/
  read_buffer : Option (List Chunk)
  /-- `self._paused_reading`. -/
  paused_reading : Bool
  /-- `self._paused_writing`. -/
  paused_writing : Bool
  /-- `self._consecutive_writes`. -/
  consecutive_writes : Nat
  /-- `self._closing`. -/
  closing : Bool
  /-- whether `abort` has torn the transport down (socket closed). -/
  aborted : Bool
  /-- whether a read-readiness callback is registered with the loop. -/
  reader_registered : Bool
  /-- whether a write-readiness callback is registered with the loop. -/
  writer_registered : Bool
  /-- all bytes successfully sent on the socket so far, concatenated. -/
  sent : List Byte
  /-- protocol callbacks delivered (or scheduled) so far, in order. -/
  events : List PEvent
deriving DecidableEq, Repr

/-- The state right after `SocketStreamTransport._do_handshake`: the read
callback is registered and `connection_made` is scheduled. -/
def initState : TransportState :=
  { write_buffer := []
    read_buffer := none
    paused_reading := false
    paused_writing := false
    consecutive_writes := 0
    closing := false
    aborted := false
    reader_registered := true
    writer_registered := false
    sent := []
    events := [.connection_made] }

/-- Modelled from the spec: `abort` lives in the base `SocketTransport`
(`pulsar/async/internet.py`, not among the sources); per the spec it
"unconditionally tears down the socket, removes all reactor
registrations, and invokes `connection_lost(failure)`". -/
def abort (r : AbortReason) (st : TransportState) : TransportState :=
  { st with aborted := true, closing := true,
            reader_registered := false, writer_registered := false,
            events := st.events ++ [.connection_lost r] }

/-- Modelled from the spec: `close` lives in the base `SocketTransport`
(not among the sources); per the spec `closing` is "set once a graceful
close is requested" and no `data_received` may be delivered afterwards,
so the read registration is dropped. -/
def close (st : TransportState) : TransportState :=
  if st.closing then st
  else { st with closing := true, reader_registered := false }

/-- Recursion core of `splitChunks`; `fuel` only makes the recursion
structural (each step drops `WRITE_BUFFER_MAX_SIZE ≥ 1` bytes, so
starting with `fuel = data.length` the fuel never runs out). -/
def splitChunksGo (fuel : Nat) (data : Chunk) : List Chunk :=
  match fuel with
  | 0 => [data]
  | fuel + 1 =>
    if WRITE_BUFFER_MAX_SIZE < data.length then
      data.take WRITE_BUFFER_MAX_SIZE ::
        splitChunksGo fuel (data.drop WRITE_BUFFER_MAX_SIZE)
    else [data]

/-- `write`'s chunk splitting (`stream.py` lines 94-98): a payload longer
than `WRITE_BUFFER_MAX_SIZE` is appended as consecutive slices
`data[i:i+WRITE_BUFFER_MAX_SIZE]`, otherwise as a single chunk. -/
def splitChunks (data : Chunk) : List Chunk :=
  splitChunksGo data.length data

/-- Modelled from the spec: `merge_prefix` is imported from
`pulsar.utils.structures` (not among the sources).  Per the spec the
drain loop must, "on each partial send, trim the front of the queue by
the sent byte count": `merge_prefix(buffer, sent)` makes the front chunk
exactly the `sent` bytes just transmitted and `popleft` removes it, so
the combined effect on the queue (given `sent ≤ len(buffer[0])`) is to
drop the front chunk when fully sent, else keep its unsent suffix. -/
def trimFront (s : Nat) (c : Chunk) (cs : List Chunk) : List Chunk :=
  if s = c.length then cs else c.drop s :: cs

/-- The send loop of `_ready_write` (`stream.py` lines 129-141), driven
by the oracle.  Returns the bytes sent, the remaining queue, and whether
a fatal socket error was raised.  An exhausted oracle behaves like a
would-block condition (the loop stops without error). -/
def drainLoop : List SendR → List Chunk → List Byte × List Chunk × Bool
  | _, [] => ([], [], false)
  | [], buf => ([], buf, false)
  | .wouldBlock :: _, buf => ([], buf, false)
  | .fatal :: _, buf => ([], buf, true)
  | .sent n :: os, c :: cs =>
    let s := min n c.length
    if s = 0 then ([], c :: cs, false)
    else
      let r := drainLoop os (trimFront s c cs)
      (c.take s ++ r.1, r.2)

/-- `SocketStreamTransport._ready_write` (`stream.py` lines 120-151).
On an aborted transport the socket is already closed, so the first send
raises and, since `closing` is set by `abort`, the handler returns with
no state change. -/
def ready_write (oracle : List SendR) (st : TransportState) : TransportState :=
  if st.aborted then st
  else if st.paused_writing then st
  else
    let r := drainLoop oracle st.write_buffer
    let st1 := { st with sent := st.sent ++ r.1, write_buffer := r.2.1 }
    if r.2.2 then
      if st1.closing then st1 else abort .socketError st1
    else if st1.write_buffer = [] then
      { st1 with writer_registered := false }
    else st1

/-- The receive loop of `SocketStreamTransport._ready_read`
(`stream.py` lines 156-185), driven by the oracle; `passes` counts loop
iterations.  A non-empty chunk received while reading is paused is
appended to `self._read_buffer`, which is `None` (an `AttributeError`
caught by the handler's `except Exception`, so the transport aborts). -/
def ready_read_go : List RecvR → Nat → TransportState → TransportState
  | [], _, st => st
  | .wouldBlock :: _, _, st => st
  | .err :: _, _, st => if st.closing then st else abort .socketError st
  | .data c :: os, passes, st =>
    if c = [] then
      if passes = 0 then
        close { st with events := st.events ++ [.eof_received] }
      else st
    else
      if st.paused_reading then
        match st.read_buffer with
        | none => abort .socketError st
        | some l =>
          ready_read_go os (passes + 1) { st with read_buffer := some (l ++ [c]) }
      else
        ready_read_go os (passes + 1)
          { st with events := st.events ++ [.data_received c] }

/-- `SocketStreamTransport._ready_read`.  On an aborted transport the
socket is closed, the first `recv` raises and the `closing` flag mutes
the failure, so the handler returns with no state change. -/
def ready_read (oracle : List RecvR) (st : TransportState) : TransportState :=
  if st.aborted then st else ready_read_go oracle 0 st

/-- `SocketStreamTransport.pause_reading` (`stream.py` lines 46-54). -/
def pause_reading (st : TransportState) : TransportState :=
  if st.paused_reading then st else { st with paused_reading := true }

/-- `SocketStreamTransport.resume_reading` (`stream.py` lines 56-63):
reads `self._read_buffer`, resets it to `None`, then iterates the saved
value delivering each chunk; iterating `None` raises `TypeError`. -/
def resume_reading (st : TransportState) : Except ApiError TransportState :=
  if st.paused_reading then
    match st.read_buffer with
    | none => .error .typeError
    | some l =>
      .ok { st with paused_reading := false, read_buffer := none,
                    events := st.events ++ l.map PEvent.data_received }
  else .ok st

/-- `SocketStreamTransport.pause_writing` (`stream.py` lines 65-75). -/
def pause_writing (st : TransportState) : TransportState :=
  if st.paused_writing then st
  else { st with paused_writing := true, writer_registered := false }

/-- `SocketStreamTransport.resume_writing` (`stream.py` lines 77-82). -/
def resume_writing (st : TransportState) : TransportState :=
  if st.paused_writing then
    if st.write_buffer = [] then { st with paused_writing := false }
    else { st with paused_writing := false, writer_registered := true }
  else st

/-- `SocketStreamTransport.write` (`stream.py` lines 84-112).  The
`oracle` drives the synchronous drain attempt `self._ready_write()` made
when the queue was empty.  `_check_closed` (base class, modelled from
the spec) raises once the transport is closing/closed; note the empty
payload returns before that check. -/
def write (data : Chunk) (oracle : List SendR) (st : TransportState) :
    Except ApiError TransportState :=
  if data = [] then .ok st
  else if st.closing then .error .closedError
  else
    let is_writing := st.write_buffer ≠ []
    let st1 := { st with write_buffer := st.write_buffer ++ splitChunks data }
    if st1.paused_writing then .ok st1
    else if is_writing then
      let cw := st1.consecutive_writes + 1
      if MAX_CONSECUTIVE_WRITES < cw then
        .ok (abort .tooManyWrites { st1 with consecutive_writes := cw })
      else .ok { st1 with consecutive_writes := cw }
    else
      let st2 := ready_write oracle { st1 with consecutive_writes := 0 }
      if st2.write_buffer = [] then .ok st2
      else .ok { st2 with writer_registered := true }

/-- One interaction with the transport: a public method call or a
reactor readiness callback (delivered only while registered). -/
inductive Op
  | write (data : Chunk) (oracle : List SendR)
  | readyWrite (oracle : List SendR)
  | readyRead (oracle : List RecvR)
  | pauseReading
  | resumeReading
  | pauseWriting
  | resumeWriting
  | closeOp
deriving Repr

/-- Single-step semantics: reactor callbacks fire only while the
corresponding registration is installed. -/
def step (op : Op) (st : TransportState) : Except ApiError TransportState :=
  match op with
  | .write d o => write d o st
  | .readyWrite o => .ok (if st.writer_registered then ready_write o st else st)
  | .readyRead o => .ok (if st.reader_registered then ready_read o st else st)
  | .pauseReading => .ok (pause_reading st)
  | .resumeReading => resume_reading st
  | .pauseWriting => .ok (pause_writing st)
  | .resumeWriting => .ok (resume_writing st)
  | .closeOp => .ok (close st)

/-- Run a sequence of interactions; stops at the first raised exception. -/
def run : List Op → TransportState → Except ApiError TransportState
  | [], st => .ok st
  | op :: ops, st =>
    match step op st with
    | .ok st1 => run ops st1
    | .error e => .error e

/-- The payloads of the `write` calls in an interaction sequence, in
call order. -/
def writePayloads (ops : List Op) : List Chunk :=
  ops.filterMap fun op =>
    match op with
    | .write d _ => some d
    | _ => none

/-! ## TLS handshake overlay (`SocketStreamSslTransport`) -/

/-- `SSLV3_ALERT_CERTIFICATE_UNKNOWN` (`stream.py` line 20). -/
def SSLV3_ALERT_CERTIFICATE_UNKNOWN : Int := 1

/-- `SSL3_WRITE_PENDING` (`stream.py` line 22). -/
def SSL3_WRITE_PENDING : Int := 1

/-- CPython's `ssl.SSL_ERROR_WANT_READ`. -/
def SSL_ERROR_WANT_READ : Int := 2

/-- CPython's `ssl.SSL_ERROR_WANT_WRITE`. -/
def SSL_ERROR_WANT_WRITE : Int := 3

/-- `SocketStreamSslTransport._read_continue` (`stream.py` lines 227-229)
applied to an `SSLError` with the given `errno`. -/
def ssl_read_continue (errno : Int) : Bool :=
  errno = SSLV3_ALERT_CERTIFICATE_UNKNOWN || errno = SSL_ERROR_WANT_READ

/-- `SocketStreamSslTransport._write_continue` (`stream.py` lines
223-225) applied to an `SSLError` with the given `errno`. -/
def ssl_write_continue (errno : Int) : Bool :=
  errno = SSL_ERROR_WANT_WRITE || errno = SSL3_WRITE_PENDING

/-- Outcome of the `self._sock.do_handshake()` call, supplied by the
environment: success, an `ssl.SSLError` with an errno, or any other
exception. -/
inductive HsAttempt
  | ok
  | sslError (errno : Int)
  | otherError
deriving DecidableEq, Repr

/-- A protocol callback named in a reactor action. -/
inductive ProtoCb
  | connection_made
  | connection_lost
deriving DecidableEq, Repr

/-- Observable effects of one `_do_handshake` step: reactor registration
changes and protocol callbacks, either scheduled for the next reactor
iteration (`callSoon`) or invoked synchronously (`callNow`). -/
inductive HsAction
  | removeReader
  | removeWriter
  | addReaderHs
  | addWriterHs
  | addReaderIo
  | addWriterIo
  | callSoon (cb : ProtoCb)
  | callNow (cb : ProtoCb)
deriving DecidableEq, Repr

/-- State of a `SocketStreamSslTransport` during its handshake. -/
structure SslState where
  /-- `self._handshake_reading`. -/
  handshake_reading : Bool := false
  /-- `self._handshake_writing`. -/
  handshake_writing : Bool := false
  /-- `self._write_buffer` (pending write demand). -/
  write_buffer : List Chunk := []
  /-- whether `abort` has torn the transport down. -/
  aborted : Bool := false
  /-- an exception re-raised out of `_do_handshake`, if any. -/
  raisedErrno : Option Int := none
deriving DecidableEq, Repr

/-- A freshly constructed TLS transport, before any handshake retry. -/
def sslInit : SslState := {}

/-- `SocketStreamSslTransport._do_handshake` (`stream.py` lines 231-263)
as one step: given the outcome of `self._sock.do_handshake()`, returns
the new state and the reactor/protocol actions performed, in order.
A fatal `ssl.SSLError` hits the `raise` inside the `except
self.SocketError` clause and therefore propagates out of the method (the
sibling `except Exception` clause of the same `try` does not catch it);
only non-`SSLError` exceptions reach `self.abort(failure)`, which per the
spec removes all registrations and invokes `connection_lost`. -/
def ssl_do_handshake (attempt : HsAttempt) (st : SslState) :
    SslState × List HsAction :=
  match attempt with
  | .sslError e =>
    if ssl_read_continue e then
      ({ st with handshake_reading := true }, [.removeReader, .addReaderHs])
    else if ssl_write_continue e then
      ({ st with handshake_writing := true }, [.removeWriter, .addWriterHs])
    else
      ({ st with raisedErrno := some e }, [])
  | .otherError =>
    ({ st with aborted := true },
     [.removeReader, .removeWriter, .callNow .connection_lost])
  | .ok =>
    let acts :=
      if st.handshake_reading then
        [.removeReader, .addReaderIo]
      else
        (if st.handshake_writing then [.removeWriter] else []) ++
          [HsAction.addReaderIo, .addWriterIo]
    ({ st with handshake_reading := false, handshake_writing := false },
     acts ++ [.callSoon .connection_made])

/-! ## Connector (`create_connection`) -/

/-- An abstract resolved socket address. -/
abbrev Addr := Nat

/-- A recorded `socket.error`: `tag` distinguishes instances, `msg` is
its `str()`. -/
structure Err where
  tag : Nat
  msg : String
deriving DecidableEq, Repr

/-- Environment for one connect attempt: what `sock.bind(laddr)` and the
non-blocking connect to a candidate address do. `none` means success. -/
structure ConnEnv where
  bindErr : Addr → Addr → Option Err
  connectErr : Addr → Option Err

/-- Socket work performed by the connector, in order. -/
inductive CCEv
  /-- the `yield multi_async(fs)` resolving the addresses completed. -/
  | resolve
  | openedSock (a : Addr)
  | bindTry (a la : Addr)
  | connectTry (a : Addr)
  | closedSock (a : Addr)
deriving DecidableEq, Repr

/-- How `create_connection` ends. -/
inductive CCOutcome
  /-- `ValueError` (configuration error). -/
  | configError (msg : String)
  /-- `socket.error` raised for an empty local resolution result. -/
  | resolutionError (msg : String)
  /-- `IndexError` from `exceptions[0]` on an empty list. -/
  | indexError
  /-- a single recorded `socket.error` re-raised. -/
  | raised (e : Err)
  /-- the combined `socket.error` listing several messages. -/
  | raisedCombined (msg : String)
  /-- connected to this candidate; a transport is built around it. -/
  | connected (a : Addr)
  /-- a pre-supplied socket was wrapped in a transport. -/
  | connectedGiven
deriving DecidableEq, Repr

/-- The `for ... else` error surfacing of `create_connection`
(`stream.py` lines 318-329): one recorded error is re-raised; several
with one `str()` re-raise the first; otherwise a combined `socket.error`
is raised.  An empty list hits `exceptions[0]` and raises `IndexError`. -/
def aggregate : List Err → CCOutcome
  | [] => .indexError
  | [e] => .raised e
  | e :: x :: xs =>
    if (e :: x :: xs).all (fun y => y.msg = e.msg) then .raised e
    else
      .raisedCombined
        ("Multiple exceptions: " ++
          String.intercalate ", " ((e :: x :: xs).map (·.msg)))

/-- The local-bind loop of `create_connection` (`stream.py` lines
296-310): try each local candidate in order until one binds, recording
an error per failed attempt; returns the recorded errors, the address
bound (if any) and the socket events. -/
def tryBinds (env : ConnEnv) (a : Addr) : List Addr →
    List Err × Option Addr × List CCEv
  | [] => ([], none, [])
  | la :: rest =>
    match env.bindErr a la with
    | none => ([], some la, [.bindTry a la])
    | some e =>
      let r := tryBinds env a rest
      (e :: r.1, r.2.1, .bindTry a la :: r.2.2)

/-- The candidate loop of `create_connection` (`stream.py` lines
291-329): for each resolved remote address open a socket, bind it to a
local candidate when a local list was resolved (closing the socket and
moving on when every bind fails), attempt the connect, and either break
on success or record the error, close the socket and continue; when the
loop exhausts all candidates the recorded errors are surfaced. -/
def ccLoop (env : ConnEnv) (laddrs : Option (List Addr)) :
    List Addr → List Err → List CCEv → CCOutcome × List CCEv
  | [], exceptions, evs => (aggregate exceptions, evs)
  | a :: rest, exceptions, evs =>
    let evs := evs ++ [.openedSock a]
    match laddrs with
    | some L =>
      let r := tryBinds env a L
      let evs := evs ++ r.2.2
      match r.2.1 with
      | none =>
        ccLoop env laddrs rest (exceptions ++ r.1) (evs ++ [.closedSock a])
      | some _ =>
        match env.connectErr a with
        | some e =>
          ccLoop env laddrs rest (exceptions ++ r.1 ++ [e])
            (evs ++ [.connectTry a, .closedSock a])
        | none => (.connected a, evs ++ [.connectTry a])
    | none =>
      match env.connectErr a with
      | some e =>
        ccLoop env laddrs rest (exceptions ++ [e])
          (evs ++ [.connectTry a, .closedSock a])
      | none => (.connected a, evs ++ [.connectTry a])

/-- `create_connection` (`stream.py` lines 267-343).  `hostPort` is
whether a host or port was given, `sockGiven` whether a pre-built socket
was supplied; `remote` is the resolved remote candidate list and
`laddrs` the resolved local-bind candidate list (`none` when no
`local_addr` was passed).  Returns the outcome and the socket events. -/
def create_connection (hostPort sockGiven : Bool) (remote : List Addr)
    (laddrs : Option (List Addr)) (env : ConnEnv) :
    CCOutcome × List CCEv :=
  if hostPort then
    if sockGiven then
      (.configError "host/port and sock can not be specified at the same time",
       [])
    else
      match laddrs with
      | some [] => (.resolutionError "getaddrinfo() returned empty list",
                    [.resolve])
      | _ => ccLoop env laddrs remote [] [.resolve]
  else if sockGiven then (.connectedGiven, [])
  else (.configError "host and port was not specified and no sock specified",
        [])

/-- The errors one failing candidate records (see `ccLoop`). -/
def candidateErrs (env : ConnEnv) (laddrs : Option (List Addr))
    (a : Addr) : List Err :=
  match laddrs with
  | some L =>
    let r := tryBinds env a L
    match r.2.1 with
    | none => r.1
    | some _ => r.1 ++ (env.connectErr a).toList
  | none => (env.connectErr a).toList

/-- Whether a candidate address yields a connection (its bind phase, if
any, finds a working local address and the connect succeeds). -/
def candidateSucceeds (env : ConnEnv) (laddrs : Option (List Addr))
    (a : Addr) : Bool :=
  match laddrs with
  | some L => (tryBinds env a L).2.1.isSome && (env.connectErr a).isNone
  | none => (env.connectErr a).isNone

/-- The whole error list recorded by a totally failing candidate loop. -/
def recordedErrors (env : ConnEnv) (laddrs : Option (List Addr))
    (remote : List Addr) : List Err :=
  (remote.map (candidateErrs env laddrs)).flatten

/-- Whether an outcome is a configuration-class error. -/
def isConfigError : CCOutcome → Bool
  | .configError _ => true
  | _ => false

/-! ## Listener (`start_serving`) -/

/-- Socket work performed by the listener, per opened socket index. -/
inductive ServeEv
  | sOpened (i : Nat)
  | sBound (i : Nat)
  | sClosed (i : Nat)
  | sListening (i : Nat)
deriving DecidableEq, Repr

/-- How `start_serving` ends. -/
inductive ServeOutcome
  /-- `ValueError` (configuration error). -/
  | sConfigError (msg : String)
  /-- `socket.error` for an empty resolution result. -/
  | sResolutionError (msg : String)
  /-- the wrapped bind `socket.error` raised for socket `i`. -/
  | bindError (i : Nat)
  /-- a `Server` over `n` listening sockets. -/
  | started (n : Nat)
deriving DecidableEq, Repr

/-- The open/bind loop of `start_serving` (`stream.py` lines 368-387):
`binds` holds, per resolved address, whether `sock.bind(sa)` succeeds;
`i` is the index of the next socket.  Returns the index of the first
failing bind (if any) and the events of the loop itself. -/
def serveLoop (binds : List Bool) (i : Nat) : Option Nat × List ServeEv :=
  match binds with
  | [] => (none, [])
  | ok :: rest =>
    if ok then
      let r := serveLoop rest (i + 1)
      (r.1, .sOpened i :: .sBound i :: r.2)
    else (some i, [.sOpened i])

/-- `start_serving` (`stream.py` lines 346-404): after the configuration
and empty-resolution checks, sockets are opened and bound one per
resolved address; a bind failure raises out of the loop and the
`finally` block closes every socket opened so far (`completed` is still
false); on success every socket starts listening. -/
def start_serving (hostPort sockGiven : Bool) (binds : List Bool) :
    ServeOutcome × List ServeEv :=
  if hostPort then
    if sockGiven then
      (.sConfigError "host/port and sock can not be specified at the same time",
       [])
    else if binds = [] then
      (.sResolutionError "getaddrinfo() returned empty list", [])
    else
      match serveLoop binds 0 with
      | (some i, evs) =>
        (.bindError i, evs ++ (List.range (i + 1)).map .sClosed)
      | (none, evs) =>
        (.started binds.length,
         evs ++ (List.range binds.length).map .sListening)
  else if sockGiven then
    (.started 1, [.sListening 0])
  else
    (.sConfigError "host and port was not specified and no sock specified",
     [])

/-! ## Lemmas: the write path preserves the byte stream -/

theorem splitChunksGo_flatten (fuel : Nat) : ∀ data : Chunk,
    (splitChunksGo fuel data).flatten = data := by
  induction fuel with
  | zero => intro data; simp [splitChunksGo]
  | succ fuel ih =>
    intro data
    rw [splitChunksGo]
    split
    · simp only [List.flatten_cons, ih, List.take_append_drop]
    · simp

theorem splitChunks_flatten (data : Chunk) :
    (splitChunks data).flatten = data :=
  splitChunksGo_flatten data.length data

theorem splitChunksGo_le (fuel : Nat) : ∀ data : Chunk,
    data.length ≤ fuel ∨ data.length ≤ WRITE_BUFFER_MAX_SIZE →
    ∀ p ∈ splitChunksGo fuel data, p.length ≤ WRITE_BUFFER_MAX_SIZE := by
  induction fuel with
  | zero =>
    intro data hd p hp
    simp only [splitChunksGo, List.mem_singleton] at hp
    subst hp
    omega
  | succ fuel ih =>
    intro data hd p hp
    rw [splitChunksGo] at hp
    split at hp
    · rename_i hlong
      rcases List.mem_cons.1 hp with rfl | hp
      · simp [List.length_take]
      · refine ih _ (Or.inl ?_) p hp
        simp only [List.length_drop]
        have hpos : 0 < WRITE_BUFFER_MAX_SIZE := by decide
        omega
    · rename_i hshort
      simp only [List.mem_singleton] at hp
      subst hp
      omega

theorem splitChunks_le (data : Chunk) :
    ∀ p ∈ splitChunks data, p.length ≤ WRITE_BUFFER_MAX_SIZE :=
  splitChunksGo_le data.length data (Or.inl le_rfl)

theorem trimFront_flatten (s : Nat) (c : Chunk) (cs : List Chunk) :
    (trimFront s c cs).flatten = c.drop s ++ cs.flatten := by
  unfold trimFront
  split
  · rename_i h
    subst h
    simp
  · simp

theorem drainLoop_flatten (os : List SendR) : ∀ buf : List Chunk,
    (drainLoop os buf).1 ++ (drainLoop os buf).2.1.flatten = buf.flatten := by
  induction os with
  | nil => intro buf; cases buf <;> simp [drainLoop]
  | cons o os ih =>
    intro buf
    cases buf with
    | nil => simp [drainLoop]
    | cons c cs =>
      cases o with
      | wouldBlock => simp [drainLoop]
      | fatal => simp [drainLoop]
      | sent n =>
        rw [drainLoop]
        by_cases h : min n c.length = 0
        · simp [h]
        · simp only [if_neg h]
          rw [List.append_assoc, ih, trimFront_flatten,
              ← List.append_assoc, List.take_append_drop]
          simp

/-- The byte stream a transport still owes the socket together with what
it already delivered. -/
def pending (st : TransportState) : List Byte :=
  st.sent ++ st.write_buffer.flatten

theorem abort_pending (r : AbortReason) (st : TransportState) :
    pending (abort r st) = pending st := rfl

theorem drain_sent_flatten (o : List SendR) (buf : List Chunk)
    (sent : List Byte) :
    (sent ++ (drainLoop o buf).1) ++ (drainLoop o buf).2.1.flatten =
      sent ++ buf.flatten := by
  rw [List.append_assoc, drainLoop_flatten]

theorem ready_write_pending (o : List SendR) (st : TransportState) :
    pending (ready_write o st) = pending st := by
  simp only [ready_write]
  split
  · rfl
  split
  · rfl
  split
  · split
    · simp only [pending]
      exact drain_sent_flatten o st.write_buffer st.sent
    · simp only [pending, abort]
      exact drain_sent_flatten o st.write_buffer st.sent
  · split
    · simp only [pending]
      exact drain_sent_flatten o st.write_buffer st.sent
    · simp only [pending]
      exact drain_sent_flatten o st.write_buffer st.sent

theorem close_pending (st : TransportState) : pending (close st) = pending st := by
  unfold close
  split <;> rfl

theorem ready_read_go_pending (os : List RecvR) : ∀ (p : Nat) (st : TransportState),
    pending (ready_read_go os p st) = pending st := by
  induction os with
  | nil => intro p st; rfl
  | cons o os ih =>
    intro p st
    cases o with
    | wouldBlock => rfl
    | err =>
      simp only [ready_read_go]
      split
      · rfl
      · exact abort_pending _ _
    | data c =>
      simp only [ready_read_go]
      split
      · split
        · exact close_pending _
        · rfl
      · split
        · split
          · exact abort_pending _ _
          · exact ih _ _
        · exact ih _ _

theorem ready_read_pending (o : List RecvR) (st : TransportState) :
    pending (ready_read o st) = pending st := by
  unfold ready_read
  split
  · rfl
  · exact ready_read_go_pending o 0 st

theorem pending_set_writer (st : TransportState) (b : Bool) :
    pending { st with writer_registered := b } = pending st := rfl

theorem write_pending (d : Chunk) (o : List SendR) (st st1 : TransportState)
    (h : write d o st = .ok st1) : pending st1 = pending st ++ d := by
  by_cases hd : d = []
  · subst hd
    simp only [write, if_pos rfl] at h
    cases h
    simp [pending]
  · by_cases hc : st.closing = true
    · simp [write, hd, hc] at h
    · simp only [write, if_neg hd, hc, Bool.false_eq_true, if_false,
                 if_neg (by simp_all : ¬st.closing = true)] at h
      split at h
      · cases h
        simp [pending, splitChunks_flatten, List.append_assoc]
      · split at h
        · split at h
          · cases h
            simp [pending, abort, splitChunks_flatten, List.append_assoc]
          · cases h
            simp [pending, splitChunks_flatten, List.append_assoc]
        · split at h
          · cases h
            rw [ready_write_pending]
            simp [pending, splitChunks_flatten, List.append_assoc]
          · cases h
            rw [pending_set_writer, ready_write_pending]
            simp [pending, splitChunks_flatten, List.append_assoc]

/-- The payload an interaction contributes to the outbound byte stream. -/
def opPayload : Op → Chunk
  | .write d _ => d
  | _ => []

theorem writePayloads_cons (op : Op) (ops : List Op) :
    (writePayloads (op :: ops)).flatten =
      opPayload op ++ (writePayloads ops).flatten := by
  cases op <;> simp [writePayloads, opPayload]

theorem step_pending (op : Op) (st st1 : TransportState)
    (h : step op st = .ok st1) : pending st1 = pending st ++ opPayload op := by
  cases op with
  | write d o => exact write_pending d o st st1 h
  | readyWrite o =>
    simp only [step] at h
    cases h
    simp only [opPayload, List.append_nil]
    split
    · exact ready_write_pending o st
    · rfl
  | readyRead o =>
    simp only [step] at h
    cases h
    simp only [opPayload, List.append_nil]
    split
    · exact ready_read_pending o st
    · rfl
  | pauseReading =>
    simp only [step] at h
    cases h
    simp only [opPayload, List.append_nil]
    unfold pause_reading
    split <;> rfl
  | resumeReading =>
    simp only [step, resume_reading] at h
    split at h
    · split at h
      · cases h
      · cases h
        simp [pending, opPayload]
    · cases h
      simp [opPayload]
  | pauseWriting =>
    simp only [step] at h
    cases h
    simp only [opPayload, List.append_nil]
    unfold pause_writing
    split <;> rfl
  | resumeWriting =>
    simp only [step] at h
    cases h
    simp only [opPayload, List.append_nil]
    unfold resume_writing
    split
    · split <;> rfl
    · rfl
  | closeOp =>
    simp only [step] at h
    cases h
    simp only [opPayload, List.append_nil]
    exact close_pending st

theorem run_pending (ops : List Op) : ∀ st st1 : TransportState,
    run ops st = .ok st1 →
    pending st1 = pending st ++ (writePayloads ops).flatten := by
  induction ops with
  | nil =>
    intro st st1 h
    simp only [run] at h
    cases h
    simp [writePayloads]
  | cons op ops ih =>
    intro st st1 h
    simp only [run] at h
    split at h
    · rename_i st2 hstep
      rw [ih st2 st1 h, step_pending op st st2 hstep, writePayloads_cons,
          List.append_assoc]
    · cases h

/-! ## Claim theorems -/

/-- C1: for every interaction sequence on a transport that never aborts,
the bytes successfully sent on the socket followed by the bytes still
queued are exactly the concatenation of the non-empty `write` payloads in
call order (so once the queue drains, the bytes sent equal `c1‖…‖cn`
exactly); moreover `write` splits every chunk into in-order pieces of at
most `WRITE_BUFFER_MAX_SIZE` bytes whose concatenation is the chunk. -/
theorem write_stream_no_loss (ops : List Op) (st1 : TransportState)
    (hrun : run ops initState = .ok st1)
    (_haborted : st1.aborted = false)
    (_hne : ∀ d ∈ writePayloads ops, d ≠ []) :
    st1.sent ++ st1.write_buffer.flatten = (writePayloads ops).flatten ∧
    (st1.write_buffer = [] → st1.sent = (writePayloads ops).flatten) ∧
    (∀ d : Chunk, (splitChunks d).flatten = d ∧
      ∀ p ∈ splitChunks d, p.length ≤ WRITE_BUFFER_MAX_SIZE) := by
  have h := run_pending ops initState st1 hrun
  simp only [pending, initState, List.append_nil, List.flatten_nil,
             List.nil_append] at h
  refine ⟨h, ?_, ?_⟩
  · intro hemp
    rw [hemp] at h
    simpa using h
  · intro d
    exact ⟨splitChunks_flatten d, splitChunks_le d⟩

/-- A concrete interaction sequence for the C1 witness: one two-byte
write partially sent, then a write-readiness callback draining the rest. -/
def c1Ops : List Op := [.write [1, 2] [.sent 1], .readyWrite [.sent 5]]

/-- The state `c1Ops` ends in. -/
def c1St : TransportState := { initState with sent := [1, 2] }

/-- Witness for C1 at a concrete run. -/
theorem write_stream_no_loss_witness :
    run c1Ops initState = .ok c1St ∧
    c1St.aborted = false ∧
    (∀ d ∈ writePayloads c1Ops, d ≠ []) ∧
    c1St.sent ++ c1St.write_buffer.flatten = (writePayloads c1Ops).flatten :=
  ⟨rfl, rfl, by decide,
   (write_stream_no_loss c1Ops c1St rfl rfl (by decide)).1⟩

/-- `write` on the empty payload returns `self` unchanged. -/
theorem write_nil_eq (o : List SendR) (st : TransportState) :
    write [] o st = .ok st := rfl

/-- C10: `write` with an empty payload returns before `_check_closed`
and before touching any state, so it is a complete no-op — no enqueue, no
send, no registration change — and never raises, whatever state the
transport is in (including closing/closed/aborted states). -/
theorem write_empty_noop (o : List SendR) (st : TransportState) :
    write [] o st = .ok st := rfl

/-- C2 (code bug): `stream.py` line 40 leaves `_read_buffer = None` and
nothing in the sources ever assigns a list to it.  Resuming after a pause
with no inbound chunks raises `TypeError` (iterating `None`); a chunk
arriving while paused raises `AttributeError` (`None.append`), which the
read handler catches and turns into an abort, so the chunk is never
delivered — `connection_lost` fires instead. -/
theorem pause_resume_buffer_bug :
    run [.pauseReading, .resumeReading] initState = .error .typeError ∧
    run [.pauseReading, .readyRead [.data [1]], .resumeReading] initState =
      .error .typeError ∧
    (ready_read [.data [1]] (pause_reading initState)).aborted = true ∧
    (ready_read [.data [1]] (pause_reading initState)).events =
      [.connection_made, .connection_lost .socketError] :=
  ⟨rfl, rfl, rfl, rfl⟩

/-- C3 (code bug): a fatal `ssl.SSLError` (errno outside the retry sets,
e.g. 42) hits the `raise` inside the `except self.SocketError` clause of
`_do_handshake` and propagates out: the transport is NOT aborted and
`connection_lost` is never invoked (nor is `connection_made`); only
non-`SSLError` exceptions reach the final `self.abort(failure)`. -/
theorem ssl_fatal_handshake_bug :
    ssl_read_continue 42 = false ∧
    ssl_write_continue 42 = false ∧
    ssl_do_handshake (.sslError 42) sslInit =
      ({ sslInit with raisedErrno := some 42 }, []) ∧
    (ssl_do_handshake (.sslError 42) sslInit).1.aborted = false ∧
    HsAction.callNow .connection_lost ∉ (ssl_do_handshake (.sslError 42) sslInit).2 ∧
    HsAction.callSoon .connection_made ∉ (ssl_do_handshake (.sslError 42) sslInit).2 := by
  decide

/-- C4 counterexample: a handshake that completes on its very first
attempt (`handshake_reading = handshake_writing = false`) with an empty
write queue still installs the write-readiness registration — the code
never consults the write queue, contradicting "installed only if there
is pending write demand". -/
theorem ssl_success_writer_cex :
    sslInit.write_buffer = [] ∧
    sslInit.handshake_reading = false ∧
    HsAction.addWriterIo ∈ (ssl_do_handshake .ok sslInit).2 := by
  decide

/-- C4 amended: on handshake success the normal read registration is
always installed; the write registration is installed iff the handshake
was not waiting on read-readiness (regardless of the write queue); both
handshake-pending flags are cleared; and `connection_made` is scheduled
with `call_soon`, never invoked synchronously. -/
theorem ssl_success_registrations (st : SslState) :
    HsAction.addReaderIo ∈ (ssl_do_handshake .ok st).2 ∧
    (HsAction.addWriterIo ∈ (ssl_do_handshake .ok st).2 ↔
      st.handshake_reading = false) ∧
    (ssl_do_handshake .ok st).1.handshake_reading = false ∧
    (ssl_do_handshake .ok st).1.handshake_writing = false ∧
    HsAction.callSoon .connection_made ∈ (ssl_do_handshake .ok st).2 ∧
    HsAction.callNow .connection_made ∉ (ssl_do_handshake .ok st).2 := by
  obtain ⟨hr, hw, wb, ab, re⟩ := st
  cases hr <;> cases hw <;> simp [ssl_do_handshake]

/-! ## C7: consecutive-write accounting -/

theorem ready_write_consec (o : List SendR) (st : TransportState) :
    (ready_write o st).consecutive_writes = st.consecutive_writes := by
  simp only [ready_write]
  split
  · rfl
  split
  · rfl
  split
  · split <;> rfl
  · split <;> rfl

theorem ready_write_aborted (o : List SendR) (st : TransportState)
    (ha : st.aborted = true) : ready_write o st = st := by
  simp [ready_write, ha]

theorem ready_read_aborted (o : List RecvR) (st : TransportState)
    (ha : st.aborted = true) : ready_read o st = st := by
  simp [ready_read, ha]

theorem close_of_closing (st : TransportState) (hc : st.closing = true) :
    close st = st := by
  simp [close, hc]

theorem write_ok_of_closing (d : Chunk) (o : List SendR)
    (st st1 : TransportState) (hc : st.closing = true)
    (h : write d o st = .ok st1) : st1 = st := by
  by_cases hd : d = []
  · subst hd
    rw [write_nil_eq] at h
    injection h with h
    exact h.symm
  · simp [write, hd, hc] at h

theorem step_dead (op : Op) (st st1 : TransportState)
    (ha : st.aborted = true) (hc : st.closing = true)
    (h : step op st = .ok st1) :
    st1.sent = st.sent ∧ st1.aborted = true ∧ st1.closing = true := by
  cases op with
  | write d o =>
    rw [write_ok_of_closing d o st st1 hc h]
    exact ⟨rfl, ha, hc⟩
  | readyWrite o =>
    simp only [step] at h
    cases h
    rw [ready_write_aborted o st ha]
    split <;> exact ⟨rfl, ha, hc⟩
  | readyRead o =>
    simp only [step] at h
    cases h
    rw [ready_read_aborted o st ha]
    split <;> exact ⟨rfl, ha, hc⟩
  | pauseReading =>
    simp only [step] at h
    cases h
    unfold pause_reading
    split <;> exact ⟨rfl, ha, hc⟩
  | resumeReading =>
    simp only [step, resume_reading] at h
    split at h
    · split at h
      · cases h
      · cases h
        exact ⟨rfl, ha, hc⟩
    · cases h
      exact ⟨rfl, ha, hc⟩
  | pauseWriting =>
    simp only [step] at h
    cases h
    unfold pause_writing
    split <;> exact ⟨rfl, ha, hc⟩
  | resumeWriting =>
    simp only [step] at h
    cases h
    unfold resume_writing
    split
    · split <;> exact ⟨rfl, ha, hc⟩
    · exact ⟨rfl, ha, hc⟩
  | closeOp =>
    simp only [step] at h
    cases h
    rw [close_of_closing st hc]
    exact ⟨rfl, ha, hc⟩

theorem run_dead (ops : List Op) : ∀ st st2 : TransportState,
    st.aborted = true → st.closing = true → run ops st = .ok st2 →
    st2.sent = st.sent := by
  induction ops with
  | nil =>
    intro st st2 _ _ h
    simp only [run] at h
    cases h
    rfl
  | cons op ops ih =>
    intro st st2 ha hc h
    simp only [run] at h
    split at h
    · rename_i st1 hstep
      obtain ⟨hs, ha1, hc1⟩ := step_dead op st st1 ha hc hstep
      rw [ih st1 st2 ha1 hc1 h, hs]
    · cases h

/-- C7 amended: on a transport that is not paused for writing, a
non-empty `write` that finds the queue non-empty only increments
`consecutive_writes` (no byte is sent), and the transport is aborted with
the distinguishable `TooManyConsecutiveWrite` failure exactly when the
incremented counter exceeds `MAX_CONSECUTIVE_WRITES`; a `write` that
finds the queue empty resets the counter to zero; and once aborted
(closing set) no interaction sequence ever sends another byte.  (When
`paused_writing` is set, `write` returns right after enqueueing and the
counter is not touched — see the counterexample.) -/
theorem consecutive_write_threshold (st : TransportState) (data : Chunk)
    (o : List SendR) (hd : data ≠ []) (hc : st.closing = false)
    (hp : st.paused_writing = false) :
    (st.write_buffer ≠ [] →
      ∃ st1, write data o st = .ok st1 ∧
        st1.sent = st.sent ∧
        st1.consecutive_writes = st.consecutive_writes + 1 ∧
        (MAX_CONSECUTIVE_WRITES < st.consecutive_writes + 1 →
          st1.aborted = true ∧ st1.closing = true ∧
          st1.events = st.events ++ [.connection_lost .tooManyWrites]) ∧
        (¬ MAX_CONSECUTIVE_WRITES < st.consecutive_writes + 1 →
          st1.aborted = st.aborted)) ∧
    (st.write_buffer = [] →
      ∃ st1, write data o st = .ok st1 ∧ st1.consecutive_writes = 0) ∧
    (∀ (st0 : TransportState) (ops : List Op) (st2 : TransportState),
      st0.aborted = true → st0.closing = true →
      run ops st0 = .ok st2 → st2.sent = st0.sent) := by
  refine ⟨?_, ?_, fun st0 ops st2 ha0 hc0 hr => run_dead ops st0 st2 ha0 hc0 hr⟩
  · intro hbuf
    by_cases hth : MAX_CONSECUTIVE_WRITES < st.consecutive_writes + 1
    · refine ⟨abort .tooManyWrites
        { st with write_buffer := st.write_buffer ++ splitChunks data,
                  consecutive_writes := st.consecutive_writes + 1 },
        ?_, rfl, rfl, fun _ => ⟨rfl, rfl, rfl⟩, fun h => absurd hth h⟩
      simp [write, hd, hc, hp, hbuf, hth]
    · refine ⟨{ st with write_buffer := st.write_buffer ++ splitChunks data,
                        consecutive_writes := st.consecutive_writes + 1 },
        ?_, rfl, rfl, fun h => absurd h hth, fun _ => rfl⟩
      simp [write, hd, hc, hp, hbuf, hth]
  · intro hbuf
    simp only [write, if_neg hd, hc, Bool.false_eq_true, if_false, hbuf,
               ne_eq, not_true_eq_false, hp]
    split
    · exact ⟨_, rfl, ready_write_consec o _⟩
    · exact ⟨_, rfl, ready_write_consec o _⟩

/-- A transport with a drain in flight, for the C7 witness. -/
def busySt : TransportState := { initState with write_buffer := [[9]] }

/-- Witness for C7 at a concrete busy transport. -/
theorem consecutive_write_threshold_witness :
    (([1] : Chunk) ≠ []) ∧ busySt.closing = false ∧
    busySt.paused_writing = false ∧ busySt.write_buffer ≠ [] ∧
    ∃ st1, write [1] [] busySt = .ok st1 ∧ st1.consecutive_writes = 1 := by
  refine ⟨by decide, rfl, rfl, by decide, ?_⟩
  obtain ⟨st1, h1, _, h3, _, _⟩ :=
    (consecutive_write_threshold busySt [1] [] (by decide) rfl rfl).1 (by decide)
  exact ⟨st1, h1, h3.trans rfl⟩

/-- C7 counterexample: with writing paused and a non-empty queue, `write`
returns right after enqueueing — `consecutive_writes` stays 0 instead of
being incremented as the claim states, so the threshold abort can never
trigger while paused. -/
def pausedBusySt : TransportState :=
  { initState with paused_writing := true, write_buffer := [[1]] }

/-- C7 counterexample theorem (see `pausedBusySt`). -/
theorem consecutive_write_paused_cex :
    pausedBusySt.write_buffer ≠ [] ∧
    pausedBusySt.consecutive_writes = 0 ∧
    write [2] [] pausedBusySt =
      .ok { pausedBusySt with write_buffer := [[1], [2]] } ∧
    ({ pausedBusySt with write_buffer := [[1], [2]]}
        : TransportState).consecutive_writes = 0 :=
  ⟨by decide, rfl, rfl, rfl⟩

/-! ## C8: zero-length receive -/

theorem ready_write_closing_fields (o : List SendR) (st : TransportState)
    (hc : st.closing = true) :
    (ready_write o st).events = st.events ∧
    (ready_write o st).closing = true ∧
    (ready_write o st).reader_registered = st.reader_registered ∧
    (ready_write o st).read_buffer = st.read_buffer := by
  simp only [ready_write, hc, if_true]
  split
  · exact ⟨rfl, hc, rfl, rfl⟩
  split
  · exact ⟨rfl, hc, rfl, rfl⟩
  split
  · exact ⟨rfl, rfl, rfl, rfl⟩
  · split <;> exact ⟨rfl, rfl, rfl, rfl⟩

theorem step_after_close (op : Op) (st st1 : TransportState)
    (h1 : st.closing = true) (h2 : st.reader_registered = false)
    (h3 : st.read_buffer = none) (h : step op st = .ok st1) :
    st1.events = st.events ∧ st1.closing = true ∧
    st1.reader_registered = false ∧ st1.read_buffer = none := by
  cases op with
  | write d o =>
    rw [write_ok_of_closing d o st st1 h1 h]
    exact ⟨rfl, h1, h2, h3⟩
  | readyWrite o =>
    simp only [step] at h
    cases h
    split
    · obtain ⟨he, hcl, hr, hb⟩ := ready_write_closing_fields _ st h1
      exact ⟨he, hcl, hr.trans h2, hb.trans h3⟩
    · exact ⟨rfl, h1, h2, h3⟩
  | readyRead o =>
    simp only [step, h2] at h
    cases h
    exact ⟨rfl, h1, h2, h3⟩
  | pauseReading =>
    simp only [step] at h
    cases h
    unfold pause_reading
    split <;> exact ⟨rfl, h1, h2, h3⟩
  | resumeReading =>
    simp only [step, resume_reading, h3] at h
    split at h
    · cases h
    · cases h
      exact ⟨rfl, h1, h2, h3⟩
  | pauseWriting =>
    simp only [step] at h
    cases h
    unfold pause_writing
    split <;> exact ⟨rfl, h1, h2, h3⟩
  | resumeWriting =>
    simp only [step] at h
    cases h
    unfold resume_writing
    split
    · split <;> exact ⟨rfl, h1, h2, h3⟩
    · exact ⟨rfl, h1, h2, h3⟩
  | closeOp =>
    simp only [step] at h
    cases h
    rw [close_of_closing st h1]
    exact ⟨rfl, h1, h2, h3⟩

theorem run_after_close (ops : List Op) : ∀ st st2 : TransportState,
    st.closing = true → st.reader_registered = false →
    st.read_buffer = none → run ops st = .ok st2 →
    st2.events = st.events := by
  induction ops with
  | nil =>
    intro st st2 _ _ _ h
    simp only [run] at h
    cases h
    rfl
  | cons op ops ih =>
    intro st st2 h1 h2 h3 h
    simp only [run] at h
    split at h
    · rename_i st1 hstep
      obtain ⟨he, h1a, h2a, h3a⟩ := step_after_close op st st1 h1 h2 h3 hstep
      rw [ih st1 st2 h1a h2a h3a h, he]
    · cases h

/-- C8: a read-readiness invocation whose first receive returns zero
bytes delivers exactly one `eof_received` (and no `data_received`) and
closes the transport; afterwards no interaction sequence ever delivers
another protocol callback — in particular no `data_received` — on that
transport. -/
theorem eof_received_once_then_close (st : TransportState)
    (rest : List RecvR) (ops : List Op) (st2 : TransportState)
    (hreg : st.reader_registered = true) (hc : st.closing = false)
    (ha : st.aborted = false) (hb : st.read_buffer = none) :
    step (.readyRead (.data [] :: rest)) st =
      .ok { st with closing := true, reader_registered := false,
                    events := st.events ++ [.eof_received] } ∧
    (run ops { st with closing := true, reader_registered := false,
                       events := st.events ++ [.eof_received] } = .ok st2 →
      st2.events = st.events ++ [.eof_received]) := by
  constructor
  · simp [step, hreg, ready_read, ha, ready_read_go, close, hc]
  · intro hr
    exact run_after_close ops _ st2 rfl rfl (by simpa using hb) hr

/-- Witness for C8 at a concrete state and run. -/
theorem eof_received_once_then_close_witness :
    initState.reader_registered = true ∧ initState.closing = false ∧
    initState.aborted = false ∧ initState.read_buffer = none ∧
    (step (.readyRead [.data []]) initState =
      .ok { initState with closing := true, reader_registered := false,
                           events := initState.events ++ [.eof_received] } ∧
    (run [.pauseReading]
        { initState with closing := true, reader_registered := false,
                         events := initState.events ++ [.eof_received] } =
          .ok { initState with closing := true, reader_registered := false,
                               events := initState.events ++ [.eof_received],
                               paused_reading := true } →
      ({ initState with closing := true, reader_registered := false,
                        events := initState.events ++ [.eof_received],
                        paused_reading := true }
          : TransportState).events =
        initState.events ++ [.eof_received])) :=
  ⟨rfl, rfl, rfl, rfl,
   eof_received_once_then_close initState [] [.pauseReading] _ rfl rfl rfl rfl⟩

/-! ## C5 and C6: connector error surfacing -/

theorem aggregate_single (e : Err) : aggregate [e] = .raised e := rfl

theorem aggregate_same (e : Err) (rest : List Err) (hne : rest ≠ [])
    (hall : ((e :: rest).all fun y => y.msg = e.msg) = true) :
    aggregate (e :: rest) = .raised e := by
  cases rest with
  | nil => exact absurd rfl hne
  | cons x xs => simp [aggregate, hall]

theorem aggregate_diff (e x : Err) (xs : List Err)
    (hd : ((e :: x :: xs).all fun y => y.msg = e.msg) = false) :
    aggregate (e :: x :: xs) =
      .raisedCombined ("Multiple exceptions: " ++
        String.intercalate ", " ((e :: x :: xs).map (·.msg))) := by
  simp [aggregate, hd]

theorem recordedErrors_nil (env : ConnEnv) (laddrs : Option (List Addr)) :
    recordedErrors env laddrs [] = [] := rfl

theorem recordedErrors_cons (env : ConnEnv) (laddrs : Option (List Addr))
    (a : Addr) (rest : List Addr) :
    recordedErrors env laddrs (a :: rest) =
      candidateErrs env laddrs a ++ recordedErrors env laddrs rest := by
  simp [recordedErrors]

theorem tryBinds_none_ne (env : ConnEnv) (a la : Addr) (L : List Addr)
    (h : (tryBinds env a (la :: L)).2.1 = none) :
    (tryBinds env a (la :: L)).1 ≠ [] := by
  simp only [tryBinds] at h ⊢
  cases hb : env.bindErr a la with
  | none =>
    rw [hb] at h
    exact Option.noConfusion h
  | some e => exact List.cons_ne_nil _ _

theorem candidateErrs_ne (env : ConnEnv) (laddrs : Option (List Addr))
    (a : Addr) (hL : laddrs ≠ some [])
    (hfail : candidateSucceeds env laddrs a = false) :
    candidateErrs env laddrs a ≠ [] := by
  cases laddrs with
  | none =>
    simp only [candidateSucceeds] at hfail
    simp only [candidateErrs]
    cases hc : env.connectErr a
    · rw [hc] at hfail; simp at hfail
    · simp
  | some L =>
    cases L with
    | nil => exact absurd rfl hL
    | cons la L' =>
      simp only [candidateErrs]
      cases hb : (tryBinds env a (la :: L')).2.1 with
      | none => exact tryBinds_none_ne env a la L' hb
      | some lb =>
        simp only [candidateSucceeds, hb, Option.isSome_some,
                   Bool.true_and] at hfail
        cases hc : env.connectErr a
        · rw [hc] at hfail; simp at hfail
        · simp

theorem ccLoop_allFail (env : ConnEnv) (laddrs : Option (List Addr)) :
    ∀ (remote : List Addr) (E : List Err) (evs : List CCEv),
    (∀ a ∈ remote, candidateSucceeds env laddrs a = false) →
    (ccLoop env laddrs remote E evs).1 =
      aggregate (E ++ recordedErrors env laddrs remote) := by
  intro remote
  induction remote with
  | nil => intro E evs _; simp [ccLoop, recordedErrors_nil]
  | cons a rest ih =>
    intro E evs hfail
    have ha := hfail a (List.mem_cons_self a rest)
    have hrest : ∀ b ∈ rest, candidateSucceeds env laddrs b = false :=
      fun b hb => hfail b (List.mem_cons_of_mem a hb)
    rw [recordedErrors_cons]
    cases laddrs with
    | none =>
      simp only [ccLoop]
      cases hc : env.connectErr a with
      | none => simp [candidateSucceeds, hc] at ha
      | some e =>
        have harr : (E ++ [e]) ++ recordedErrors env none rest =
            E ++ (candidateErrs env none a ++ recordedErrors env none rest) := by
          simp [candidateErrs, hc, List.append_assoc]
        exact (ih (E ++ [e]) _ hrest).trans (congrArg aggregate harr)
    | some L =>
      simp only [ccLoop]
      cases hb : (tryBinds env a L).2.1 with
      | none =>
        have harr : (E ++ (tryBinds env a L).1) ++
              recordedErrors env (some L) rest =
            E ++ (candidateErrs env (some L) a ++
              recordedErrors env (some L) rest) := by
          simp [candidateErrs, hb, List.append_assoc]
        exact (ih (E ++ (tryBinds env a L).1) _ hrest).trans
          (congrArg aggregate harr)
      | some lb =>
        cases hc : env.connectErr a with
        | none => simp [candidateSucceeds, hb, hc] at ha
        | some e =>
          have harr : (E ++ (tryBinds env a L).1 ++ [e]) ++
                recordedErrors env (some L) rest =
              E ++ (candidateErrs env (some L) a ++
                recordedErrors env (some L) rest) := by
            simp [candidateErrs, hb, hc, List.append_assoc]
          exact (ih (E ++ (tryBinds env a L).1 ++ [e]) _ hrest).trans
            (congrArg aggregate harr)

theorem create_connection_loop (env : ConnEnv) (remote : List Addr)
    (laddrs : Option (List Addr)) (hL : laddrs ≠ some []) :
    create_connection true false remote laddrs env =
      ccLoop env laddrs remote [] [.resolve] := by
  cases laddrs with
  | none => rfl
  | some L =>
    cases L with
    | nil => exact absurd rfl hL
    | cons la L' => rfl

/-- C5: when every resolved candidate fails, `create_connection`
surfaces `aggregate` of the recorded error list (which is non-empty);
and `aggregate` raises a single recorded error verbatim, raises the
first instance when several recorded errors share one message, and
raises one combined error listing every message when messages differ. -/
theorem connector_error_aggregation (env : ConnEnv)
    (laddrs : Option (List Addr)) (remote : List Addr)
    (hL : laddrs ≠ some []) (hre : remote ≠ [])
    (hfail : ∀ a ∈ remote, candidateSucceeds env laddrs a = false) :
    (create_connection true false remote laddrs env).1 =
      aggregate (recordedErrors env laddrs remote) ∧
    recordedErrors env laddrs remote ≠ [] ∧
    (∀ e : Err, aggregate [e] = .raised e) ∧
    (∀ (e : Err) (rest : List Err), rest ≠ [] →
      ((e :: rest).all fun y => y.msg = e.msg) = true →
      aggregate (e :: rest) = .raised e) ∧
    (∀ (e x : Err) (xs : List Err),
      ((e :: x :: xs).all fun y => y.msg = e.msg) = false →
      aggregate (e :: x :: xs) =
        .raisedCombined ("Multiple exceptions: " ++
          String.intercalate ", " ((e :: x :: xs).map (·.msg)))) := by
  refine ⟨?_, ?_, aggregate_single, aggregate_same, aggregate_diff⟩
  · rw [create_connection_loop env remote laddrs hL]
    simpa using ccLoop_allFail env laddrs remote [] [.resolve] hfail
  · cases remote with
    | nil => exact absurd rfl hre
    | cons a rest =>
      rw [recordedErrors_cons]
      have := candidateErrs_ne env laddrs a hL
        (hfail a (List.mem_cons_self a rest))
      intro hcontra
      rcases List.append_eq_nil.1 hcontra with ⟨h1, _⟩
      exact this h1

/-- Connect environment for the C5 witness: both candidates fail, with
distinct error messages. -/
def envW : ConnEnv :=
  { bindErr := fun _ _ => none
    connectErr := fun a => if a = 0 then some ⟨0, "boom"⟩ else some ⟨1, "crash"⟩ }

/-- Witness for C5 at a concrete environment. -/
theorem connector_error_aggregation_witness :
    ((none : Option (List Addr)) ≠ some []) ∧
    ([0, 1] : List Addr) ≠ [] ∧
    (∀ a ∈ ([0, 1] : List Addr),
      candidateSucceeds envW none a = false) ∧
    (create_connection true false [0, 1] none envW).1 =
      aggregate (recordedErrors envW none [0, 1]) :=
  ⟨by decide, by decide, by decide,
   (connector_error_aggregation envW none [0, 1] (by decide) (by decide)
      (by decide)).1⟩

/-- Trivial environment for the C6 failing input. -/
def env0 : ConnEnv := { bindErr := fun _ _ => none, connectErr := fun _ => none }

/-- C6 (code bug): an empty remote resolution result is never checked by
`create_connection` (unlike `start_serving`, which checks `if not
infos`): the empty candidate loop falls through to `exceptions[0]` on an
empty list and raises `IndexError` — not a configuration-class error.
The two checks the code does make are recorded alongside: mutually
exclusive host/port+sock (`ValueError`, before any work at all) and an
empty local-bind resolution (`socket.error`, after resolution but before
any socket is opened). -/
theorem connector_empty_resolution_bug :
    create_connection true false [] none env0 = (.indexError, [.resolve]) ∧
    isConfigError .indexError = false ∧
    create_connection true true [0] none env0 =
      (.configError "host/port and sock can not be specified at the same time",
       []) ∧
    create_connection true false [0] (some []) env0 =
      (.resolutionError "getaddrinfo() returned empty list", [.resolve]) :=
  ⟨rfl, rfl, rfl, rfl⟩

/-! ## C9: all-or-nothing listener startup -/

/-- The events `serveLoop` produces up to and including the first failing
bind (`n` successful binds, then the failing open). -/
def failTrace (k : Nat) : Nat → List ServeEv
  | 0 => [.sOpened k]
  | n + 1 => .sOpened k :: .sBound k :: failTrace (k + 1) n

theorem serveLoop_firstFail : ∀ (binds : List Bool) (i k : Nat),
    binds[i]? = some false → (∀ j, j < i → binds[j]? = some true) →
    serveLoop binds k = (some (k + i), failTrace k i) := by
  intro binds
  induction binds with
  | nil => intro i k hi _; simp at hi
  | cons b rest ih =>
    intro i k hi hj
    cases i with
    | zero =>
      simp only [List.getElem?_cons_zero, Option.some_inj] at hi
      subst hi
      simp [serveLoop, failTrace]
    | succ n =>
      have hb : b = true := by
        have := hj 0 (Nat.succ_pos n)
        simpa using this
      subst hb
      have hi' : rest[n]? = some false := by simpa using hi
      have hj' : ∀ j, j < n → rest[j]? = some true := fun j hjn => by
        simpa using hj (j + 1) (Nat.succ_lt_succ hjn)
      simp only [serveLoop, if_pos rfl]
      rw [ih n (k + 1) hi' hj']
      simp [failTrace]
      omega

theorem failTrace_opened : ∀ (n k j : Nat),
    (ServeEv.sOpened j ∈ failTrace k n ↔ k ≤ j ∧ j ≤ k + n) := by
  intro n
  induction n with
  | zero => intro k j; simp [failTrace]; omega
  | succ n ih =>
    intro k j
    simp [failTrace, ih (k + 1) j]
    omega

theorem failTrace_no_closed : ∀ (n k j : Nat),
    ServeEv.sClosed j ∉ failTrace k n := by
  intro n
  induction n with
  | zero => intro k j; simp [failTrace]
  | succ n ih => intro k j; simp [failTrace, ih (k + 1) j]

theorem failTrace_no_listening : ∀ (n k j : Nat),
    ServeEv.sListening j ∉ failTrace k n := by
  intro n
  induction n with
  | zero => intro k j; simp [failTrace]
  | succ n ih => intro k j; simp [failTrace, ih (k + 1) j]

/-- C9: if the `i`-th bind fails (and the earlier ones succeeded), the
whole listener startup fails with the wrapped bind error, every socket
opened so far — the failing one included — is closed, and no socket is
ever put into listening mode: startup is all-or-nothing. -/
theorem listener_bind_all_or_nothing (binds : List Bool) (i : Nat)
    (hi : binds[i]? = some false)
    (hj : ∀ j, j < i → binds[j]? = some true) :
    (start_serving true false binds).1 = .bindError i ∧
    (∀ j, ServeEv.sOpened j ∈ (start_serving true false binds).2 ↔
          ServeEv.sClosed j ∈ (start_serving true false binds).2) ∧
    (∀ j, ServeEv.sListening j ∉ (start_serving true false binds).2) := by
  have hbne : binds ≠ [] := by
    intro h
    subst h
    simp at hi
  have hs := serveLoop_firstFail binds i 0 hi hj
  have hss : start_serving true false binds =
      (.bindError i, failTrace 0 i ++ (List.range (i + 1)).map .sClosed) := by
    simp only [start_serving, if_pos rfl, if_neg hbne]
    rw [hs]
    simp
  rw [hss]
  refine ⟨rfl, ?_, ?_⟩
  · intro j
    simp [List.mem_append, failTrace_opened, failTrace_no_closed,
          List.mem_map, List.mem_range]
    omega
  · intro j
    simp [List.mem_append, failTrace_no_listening, List.mem_map]

/-- Witness for C9 at a concrete bind sequence. -/
theorem listener_bind_all_or_nothing_witness :
    (([true, false] : List Bool)[1]? = some false) ∧
    (start_serving true false [true, false]).1 = .bindError 1 :=
  ⟨rfl,
   (listener_bind_all_or_nothing [true, false] 1 rfl (fun j hj => by
      have hj0 : j = 0 := by omega
      subst hj0
      rfl)).1⟩

end Pulsar
